import Mathlib

/-
Shallow embedding of the hierarchical count index of the entwine point-cloud
indexer: `HierarchyCell`, the `ContiguousBlock` and `SparseBlock` variants of
`HierarchyBlock`, `Hierarchy` save/load/merge (src/entwine/tree/hierarchy.hpp),
the `ChunkState` climb cursor (src/entwine/reader/query.hpp) and the nullDepth
adjustment of `ConfigParser::getBuilder` (src/entwine/tree/config-parser.cpp).
C++ `std::map` is embedded as a key-sorted association list, machine integers
as `Nat`/`Int` with the source's conversions made explicit, and fallible
operations as `Option` or `Except`.
-/

/-- Lookup in a key-sorted association list (`std::map::find`). -/
def slFind {α : Type} (k : Nat) : List (Nat × α) → Option α
  | [] => none
  | (k1, v) :: rest => if k = k1 then some v else slFind k rest

/-- Insert-or-overwrite keeping keys in ascending order, matching `std::map`
key order (which `save` iterates in). -/
def slInsert {α : Type} (k : Nat) (v : α) : List (Nat × α) → List (Nat × α)
  | [] => [(k, v)]
  | (k1, v1) :: rest =>
    if k < k1 then (k, v) :: (k1, v1) :: rest
    else if k = k1 then (k, v) :: rest
    else (k1, v1) :: slInsert k v rest

/-- `m[k]` followed by a mutation of the mapped value: `std::map::operator[]`
default-inserts `d` when `k` is absent, then `f` is applied to the entry. -/
def slModify {α : Type} (k : Nat) (d : α) (f : α → α) (m : List (Nat × α)) :
    List (Nat × α) :=
  match slFind k m with
  | some v => slInsert k (f v) m
  | none => slInsert k (f d) m

/-- Apply `f` at `k` only when `k` is linked into the map; when it is not, the
write goes to a node the map no longer reaches and later reads cannot see it. -/
def slModifyIfPresent {α : Type} (k : Nat) (f : α → α) (m : List (Nat × α)) :
    List (Nat × α) :=
  match slFind k m with
  | some v => slInsert k (f v) m
  | none => m

/-- `static_cast<int>` applied to a `uint64_t` value (hierarchy.hpp line 48):
two's-complement truncation to 32 bits. -/
def int32OfUInt64 (v : Nat) : Int :=
  if v % 2 ^ 32 < 2 ^ 31 then ((v % 2 ^ 32 : Nat) : Int)
  else ((v % 2 ^ 32 : Nat) : Int) - 2 ^ 32

/-- Conversion of a signed intermediate back into the `uint64_t` member
`m_val`: reduction modulo `2^64`. -/
def uint64OfInt (i : Int) : Nat := (i % (2 ^ 64 : Int)).toNat

/-- `HierarchyCell::count(delta)`: under the cell spinlock,
`m_val = static_cast<int>(m_val) + delta;`.  The stored `uint64_t` is the
`Nat` argument and result. -/
def cellCount (v : Nat) (delta : Int) : Nat :=
  uint64OfInt (int32OfUInt64 v + delta)

/-- `HierarchyTube = std::map<uint64_t, HierarchyCell>`: tick ↦ stored count. -/
abbrev HierarchyTube := List (Nat × Nat)

/-- `ContiguousBlock`: base id `m_id` plus the fixed-length tube vector
`m_tubes`, one slot per node id in the block's span.  `Id` values inside base
depth downcast to machine words (`getSimple`) and are embedded as `Nat`. -/
structure ContiguousBlock where
  id : Nat
  tubes : List HierarchyTube

/-- `ContiguousBlock::count`:
`m_tubes.at(normalize(id).getSimple())[tick].count(delta)`; an out-of-range
index makes `vector::at` throw, embedded as `none`.  This is the sequential
meaning of one whole call; the decomposition into the atomic actions it
actually performs on the shared map is `countStep` below. -/
def contiguousCount (b : ContiguousBlock) (id tick : Nat) (delta : Int) :
    Option ContiguousBlock :=
  match b.tubes[id - b.id]? with
  | some tube =>
    some { b with
            tubes := b.tubes.set (id - b.id)
              (slModify tick 0 (fun v => cellCount v delta) tube) }
  | none => none

/-- `ContiguousBlock::get`: normalized index into `m_tubes` (`vector::at`,
`none` when out of range), then a tick lookup, 0 for an absent tick. -/
def contiguousGet (b : ContiguousBlock) (id tick : Nat) : Option Nat :=
  match b.tubes[id - b.id]? with
  | some tube =>
    some (match slFind tick tube with
          | some v => v
          | none => 0)
  | none => none

/-- `HierarchyBlock::push`: append the 8 little-endian bytes of a `uint64_t`. -/
def encodeU64 (v : Nat) : List Nat :=
  [v % 256, v / 2 ^ 8 % 256, v / 2 ^ 16 % 256, v / 2 ^ 24 % 256,
   v / 2 ^ 32 % 256, v / 2 ^ 40 % 256, v / 2 ^ 48 % 256, v / 2 ^ 56 % 256]

/-- Body of `ContiguousBlock::save`: for each tube index in order, for each
(tick, cell) of the tube in key order, push tube, tick, value. -/
def contiguousSerialize (b : ContiguousBlock) : List Nat :=
  b.tubes.enum.flatMap (fun p =>
    p.2.flatMap (fun c => encodeU64 p.1 ++ encodeU64 c.1 ++ encodeU64 c.2))

/-- The storage endpoint (`arbiter::Endpoint`): a key ↦ bytes store. -/
abbrev Endpoint := List (String × List Nat)

/-- `Endpoint::put`: overwrite or create. -/
def epPut (key : String) (bytes : List Nat) : Endpoint → Endpoint
  | [] => [(key, bytes)]
  | (k, v) :: rest =>
    if key = k then (key, bytes) :: rest else (k, v) :: epPut key bytes rest

/-- `Endpoint::getBinary` as a total probe: the stored bytes, if any. -/
def epFind (key : String) : Endpoint → Option (List Nat)
  | [] => none
  | (k, v) :: rest => if key = k then some v else epFind key rest

/-- `ContiguousBlock::save(ep, pf)`: `ep.put(m_id.str() + pf, data)` where
`data` is the serialized cell list. -/
def contiguousSave (b : ContiguousBlock) (ep : Endpoint) (pf : String) :
    Endpoint :=
  epPut (toString b.id ++ pf) (contiguousSerialize b) ep

/-- A little-endian `uint64_t` assembled from 8 bytes, as read by `extract()`
in the `ContiguousBlock` load constructor. -/
def le64 (b0 b1 b2 b3 b4 b5 b6 b7 : Nat) : Nat :=
  b0 % 256 + 256 * (b1 % 256 + 256 * (b2 % 256 + 256 * (b3 % 256 +
    256 * (b4 % 256 + 256 * (b5 % 256 + 256 * (b6 % 256 + 256 * (b7 % 256)))))))

/-- How a run of the load constructor's `while (pos < end)` loop ends when it
does not succeed.  `oobRead` is an `extract()` whose 8-byte read crosses the
end of the byte buffer — the code has no length check, so on input whose
length is not a multiple of 24 it really performs that out-of-bounds read.
`outOfRange` is the `std::out_of_range` thrown by `m_tubes.at(tube)` for a
decoded tube id outside the block.  The code contains no `MalformedBlock`. -/
inductive LoadErr
  | oobRead
  | outOfRange

/-- The loop of `ContiguousBlock::ContiguousBlock(id, maxPoints, data)`: while
bytes remain, extract tube, tick and cell (8 little-endian bytes each) and
assign `m_tubes.at(tube)[tick] = cell` (`HierarchyCell::operator=`, an
overwrite).  A nonempty remainder shorter than one 24-byte record makes some
`extract()` read past the end of the buffer. -/
def loadLoop : List HierarchyTube → List Nat → Except LoadErr (List HierarchyTube)
  | tubes, [] => Except.ok tubes
  | tubes, b0 :: b1 :: b2 :: b3 :: b4 :: b5 :: b6 :: b7 ::
      c0 :: c1 :: c2 :: c3 :: c4 :: c5 :: c6 :: c7 ::
      d0 :: d1 :: d2 :: d3 :: d4 :: d5 :: d6 :: d7 :: rest =>
    match tubes[le64 b0 b1 b2 b3 b4 b5 b6 b7]? with
    | some tube =>
      loadLoop
        (tubes.set (le64 b0 b1 b2 b3 b4 b5 b6 b7)
          (slInsert (le64 c0 c1 c2 c3 c4 c5 c6 c7)
            (le64 d0 d1 d2 d3 d4 d5 d6 d7) tube))
        rest
    | none => Except.error LoadErr.outOfRange
  | _, _ :: _ => Except.error LoadErr.oobRead

/-- The load-from-bytes constructor of `ContiguousBlock`: `maxPoints` empty
tubes, then the record loop over `data`. -/
def contiguousLoad (id maxPoints : Nat) (data : List Nat) :
    Except LoadErr ContiguousBlock :=
  match loadLoop (List.replicate maxPoints []) data with
  | Except.ok ts => Except.ok ⟨id, ts⟩
  | Except.error e => Except.error e

/-- `SparseBlock`: base id `m_id` plus `std::map<Id, HierarchyTube> m_tubes`,
mutated under the block-level spinlock `m_spinner`. -/
structure SparseBlock where
  id : Nat
  tubes : List (Nat × HierarchyTube)

/-- `SparseBlock::count`: under `m_spinner`,
`m_tubes[normalize(id)][tick].count(delta)` — the tube key is the normalized
id `id − m_id`. -/
def sparseCount (b : SparseBlock) (id tick : Nat) (delta : Int) : SparseBlock :=
  { b with
      tubes := slModify (id - b.id) []
        (slModify tick 0 (fun v => cellCount v delta)) b.tubes }

/-- `SparseBlock::get`: `m_tubes.find(id)` — the raw id, not the normalized
one — then a tick lookup; 0 when either lookup misses. -/
def sparseGet (b : SparseBlock) (id tick : Nat) : Nat :=
  match slFind id b.tubes with
  | some tube =>
    match slFind tick tube with
    | some v => v
    | none => 0
  | none => 0

/-- `SparseBlock::save`: the entire body is the comment `// TODO.` — nothing
is serialized and the endpoint is left untouched. -/
def sparseSave (_b : SparseBlock) (ep : Endpoint) (_pf : String) : Endpoint := ep

/-- A cold block held in `Hierarchy::m_blocks`
(`std::unique_ptr<HierarchyBlock>`): either variant. -/
inductive HBlock
  | contiguous (b : ContiguousBlock)
  | sparse (b : SparseBlock)

/-- Virtual dispatch of `HierarchyBlock::save`. -/
def hblockSave (blk : HBlock) (ep : Endpoint) (pf : String) : Endpoint :=
  match blk with
  | HBlock.contiguous b => contiguousSave b ep pf
  | HBlock.sparse b => sparseSave b ep pf

/-- `Hierarchy`: the always-resident base `ContiguousBlock` (root id 0,
`m_base(0, baseIndexSpan)`) and the cold-block map keyed by block root id. -/
structure Hierarchy where
  base : ContiguousBlock
  blocks : List (Nat × HBlock)

/-- `Hierarchy::save(ep, postfix)`: first `m_base.save(ep)` — the base block is
saved with the default empty postfix, not the given one — then each cold block
is saved with the given postfix. -/
def hierarchySave (h : Hierarchy) (ep : Endpoint) (pf : String) : Endpoint :=
  h.blocks.foldl (fun e p => hblockSave p.2 e pf) (contiguousSave h.base ep "")

/-- The bytes the loading constructor `Hierarchy(metadata, ep, postfix)` hands
to the base block: `ep.getBinary("0" + postfix)`. -/
def hierarchyLoadBaseBytes (ep : Endpoint) (pf : String) : Option (List Nat) :=
  epFind ("0" ++ pf) ep

/-- `Hierarchy::merge(other)`: the body in the source is the empty stub `{ }`. -/
def hierarchyMerge (a : Hierarchy) (_other : Hierarchy) : Hierarchy := a

/-- Modelled from the spec: `Hierarchy::get` is declared in hierarchy.hpp but
defined in a source file not under src/; per the spec a node whose depth lies
within base depth is read from the base block.  Only that base-depth routing is
needed here. -/
def hierarchyGetBase (h : Hierarchy) (id tick : Nat) : Option Nat :=
  contiguousGet h.base id tick

/-- Modelled from the spec: the slice of `Structure` consulted by `ChunkState`
(types/structure.hpp is not under src/) — the accessors `dimensions()`,
`sparseDepthBegin()` and `factor()` as abstract parameters.  The spec fixes
`factor = 2^dimensions`, but no claim below needs that identity. -/
structure Structure where
  dimensions : Nat
  sparseDepthBegin : Nat
  factor : Nat

/-- Modelled from the spec: `Dir` (types/dir.hpp is not under src/) is the enum
of the 8 octants identified by sign triples, with `toIntegral` its total
order. -/
inductive Dir
  | swd | sed | nwd | ned | swu | seu | nwu | neu

/-- Modelled from the spec: `toIntegral` maps the eight directions to 0..7. -/
def toIntegral : Dir → Nat
  | Dir.swd => 0
  | Dir.sed => 1
  | Dir.nwd => 2
  | Dir.ned => 3
  | Dir.swu => 4
  | Dir.seu => 5
  | Dir.nwu => 6
  | Dir.neu => 7

/-- `ChunkState`: the chunk cursor's depth, chunkId and pointsPerChunk (`Id`
embedded as `Nat`; the `m_bbox` member and its `go(dir)` refinement are
geometric state that no claim below constrains, so they are not modelled). -/
structure ChunkState where
  depth : Nat
  chunkId : Nat
  pointsPerChunk : Nat

/-- How `ChunkState::getClimb(Dir)` fails: the source line
`if (result.m_depth > m_structure.sparseDepthBegin()) throw; // TODO` is a bare
rethrow with no exception in flight, which calls `std::terminate` — no
catchable error object of any kind is produced. -/
inductive ClimbErr
  | terminate

/-- `ChunkState::allDirections()`:
`m_depth + 1 <= sparseDepthBegin() || !sparseDepthBegin()`. -/
def allDirections (s : Structure) (cs : ChunkState) : Bool :=
  decide (cs.depth + 1 ≤ s.sparseDepthBegin) || decide (s.sparseDepthBegin = 0)

/-- `ChunkState::getClimb(Dir)` (the dense, directional climb): increment the
depth, bail out when the new depth exceeds `sparseDepthBegin()`, else
`chunkId = (chunkId << dimensions) + 1 + toIntegral(dir) * pointsPerChunk`
with `pointsPerChunk` unchanged. -/
def getClimbDir (s : Structure) (cs : ChunkState) (dir : Dir) :
    Except ClimbErr ChunkState :=
  if s.sparseDepthBegin < cs.depth + 1 then Except.error ClimbErr.terminate
  else Except.ok
    { depth := cs.depth + 1,
      chunkId := cs.chunkId * 2 ^ s.dimensions + 1
        + toIntegral dir * cs.pointsPerChunk,
      pointsPerChunk := cs.pointsPerChunk }

/-- `ChunkState::getClimb()` (the sparse climb): depth + 1,
`chunkId = (chunkId << dimensions) + 1`, `pointsPerChunk *= factor()`. -/
def getClimbSparse (s : Structure) (cs : ChunkState) : ChunkState :=
  { depth := cs.depth + 1,
    chunkId := cs.chunkId * 2 ^ s.dimensions + 1,
    pointsPerChunk := cs.pointsPerChunk * s.factor }

/-- `ConfigParser::getBuilder` (config-parser.cpp lines 94-110 and 166-167):
when the configuration has a "subset" member and the configured nullDepth is
below `subset->minimumNullDepth()`, `jsonStructure["nullDepth"]` is overwritten
with exactly the minimum before `Structure structure(jsonStructure)` is built;
otherwise the configured value is passed through unchanged. -/
def builderNullDepth (hasSubset : Bool) (configNullDepth minNullDepth : Nat) :
    Nat :=
  if hasSubset then
    if configNullDepth < minNullDepth then minNullDepth else configNullDepth
  else configNullDepth

/-- One pending `ContiguousBlock::count(id, tick, delta)` call on a tube. -/
structure CountCall where
  tick : Nat
  delta : Int

/-- Thread-local state of one in-flight `count` call on the shared tube:
`snap` is the view of the map read by `operator[]`, `pc` the next atomic
action (0 = map lookup, 1 = structural insertion, 2 = locked increment,
3 = call returned). -/
structure ThreadSt where
  call : CountCall
  snap : Option HierarchyTube
  pc : Nat

/-- One atomic action of `m_tubes.at(...)[tick].count(delta)` from
`ContiguousBlock::count`.  The cell spinlock makes the increment (pc = 2)
atomic, but the enclosing `std::map<uint64_t, HierarchyCell>::operator[]` runs
with no lock: its lookup (pc = 0) and — when the tick is absent — the
structural insertion it performs (pc = 1) are separate unsynchronized accesses
to the shared map, the insertion being built from the state the lookup read.
The locked increment then writes through the reference `operator[]` returned:
when that node is no longer linked into the map, the write lands in memory the
map does not reach, so the map is unchanged when the tick is absent. -/
def countStep (tube : HierarchyTube) (t : ThreadSt) : HierarchyTube × ThreadSt :=
  match t.pc with
  | 0 => (tube, { t with snap := some tube, pc := 1 })
  | 1 =>
    (match t.snap with
     | some s =>
       (match slFind t.call.tick s with
        | none => (slInsert t.call.tick 0 s, { t with pc := 2 })
        | some _ => (tube, { t with pc := 2 }))
     | none => (tube, { t with pc := 2 }))
  | 2 =>
    (slModifyIfPresent t.call.tick (fun v => cellCount v t.call.delta) tube,
      { t with pc := 3 })
  | _ => (tube, t)

/-- A sequentially consistent interleaving of two concurrent `count` calls on
one shared tube: `false` steps thread 1, `true` steps thread 2. -/
def runSched (sched : List Bool) (tube : HierarchyTube) (t1 t2 : ThreadSt) :
    HierarchyTube × ThreadSt × ThreadSt :=
  match sched with
  | [] => (tube, t1, t2)
  | b :: rest =>
    if b then
      runSched rest (countStep tube t2).1 t1 (countStep tube t2).2
    else
      runSched rest (countStep tube t1).1 (countStep tube t1).2 t2

/-- The interleaving lookup1, lookup2, insert1, insert2, increment1,
increment2 of `count(tick 0, +1)` (thread 1) and `count(tick 1, +1)`
(thread 2) on an initially empty tube of a `ContiguousBlock`. -/
def raceRun : HierarchyTube × ThreadSt × ThreadSt :=
  runSched [false, true, false, true, false, true] []
    ⟨⟨0, 1⟩, none, 0⟩ ⟨⟨1, 1⟩, none, 0⟩

/-- A hierarchy whose base block (root id 0, one tube) holds one count. -/
def exHierarchy : Hierarchy :=
  { base := ⟨0, [[(0, 1)]]⟩, blocks := [] }

/-- Pre-merge hierarchy A: an empty base block of two tubes. -/
def mergeA : Hierarchy := { base := ⟨0, [[], []]⟩, blocks := [] }

/-- Pre-merge hierarchy B: count 2 at node id 1, tick 0 of its base block. -/
def mergeB : Hierarchy := { base := ⟨0, [[], [(0, 2)]]⟩, blocks := [] }

/-- C1: refuted as stated — the claim asserts that no set of concurrent
`count` calls on any `HierarchyBlock` variant loses an update, but
`ContiguousBlock::count` mutates the per-tube `std::map` through an
unsynchronized `operator[]`.  In the interleaving `raceRun` of two calls on
distinct ticks of one tube, both calls return (`pc = 3`), thread 2's
structural insertion overwrites thread 1's, and the cell (tick 0) to which
delta +1 was applied reads back as absent — count 0, not the sum 1 of its
deltas — while tick 1 keeps its delta. -/
theorem contiguous_count_race_loses_update :
    raceRun.2.1.pc = 3 ∧ raceRun.2.2.pc = 3 ∧
    slFind 0 raceRun.1 = none ∧ slFind 1 raceRun.1 = some 1 :=
  ⟨rfl, rfl, rfl, rfl⟩

/-- C2: refuted as stated — `SparseBlock::count` stores under the normalized
key `id − m_id`, but `SparseBlock::get` looks up the raw `id`, so on a block
with `m_id = 5`, after `count(7, 0, +3)` on the previously empty block,
`get(7, 0)` returns 0 rather than the delta 3 the claim requires; the cell
actually sits under tube key 2. -/
theorem sparse_get_misses_normalize :
    sparseGet (sparseCount ⟨5, []⟩ 7 0 3) 7 0 = 0 ∧
    slFind 2 (sparseCount ⟨5, []⟩ 7 0 3).tubes = some [(0, 3)] :=
  ⟨rfl, rfl⟩

/-- C3: refuted as stated — at a state where `allDirections()` is false
(depth 2, sparseDepthBegin 2 > 0), `getClimb(dir)` does fail, but through the
bare `throw;` placeholder — no exception in flight, hence `std::terminate` —
and not by raising the `InvariantViolated` error the claim names. -/
theorem sparse_boundary_bare_throw :
    allDirections ⟨3, 2, 8⟩ ⟨2, 5, 8⟩ = false ∧
    getClimbDir ⟨3, 2, 8⟩ ⟨2, 5, 8⟩ Dir.swd = Except.error ClimbErr.terminate :=
  ⟨rfl, rfl⟩

/-- C4: refuted as stated — the claim covers both variants, but
`SparseBlock::save` is the stub `// TODO.`: saving a populated sparse block
(one cell holding count 1) writes nothing to the endpoint, so no reload can
reproduce its cells and `load(save(B))` cannot equal `B` cell-for-cell. -/
theorem sparse_save_stub_drops_cells :
    sparseSave (sparseCount ⟨0, []⟩ 0 0 1) [] "" = ([] : Endpoint) ∧
    sparseGet (sparseCount ⟨0, []⟩ 0 0 1) 0 0 = 1 :=
  ⟨rfl, rfl⟩

/-- C5: refuted as stated — `Hierarchy::save` calls `m_base.save(ep)` without
forwarding the postfix, so with postfix "-3" the base block lands under key
"0" and not under "0-3"; the loading constructor reads `"0" + postfix` = "0-3"
from the same endpoint and finds nothing. -/
theorem hierarchy_save_base_key_mismatch :
    epFind "0-3" (hierarchySave exHierarchy [] "-3") = none ∧
    epFind "0" (hierarchySave exHierarchy [] "-3") =
      some (contiguousSerialize exHierarchy.base) ∧
    hierarchyLoadBaseBytes (hierarchySave exHierarchy [] "-3") "-3" = none :=
  ⟨rfl, rfl, rfl⟩

/-- C6: refuted as stated — `HierarchyCell::count` computes
`m_val = static_cast<int>(m_val) + delta`, truncating the stored 64-bit value
to a 32-bit signed integer: from v = 2^31 an increment by +1 yields
2^64 − 2^31 + 1 (the sign-extended wrap), not v + 1 = 2^31 + 1, even though
v + delta ≥ 0. -/
theorem cell_count_int_cast_truncates :
    cellCount (2 ^ 31) 1 = 2 ^ 64 - 2 ^ 31 + 1 ∧
    cellCount (2 ^ 31) 1 ≠ 2 ^ 31 + 1 := by
  constructor
  · decide
  · decide

/-- C7: refuted as stated — `Hierarchy::merge` is the empty stub `{ }`: after
`A.merge(B)` where B holds count 2 at node 1, A is completely unchanged and
still reads 0 there, not the claimed sum 0 + 2 of the pre-merge counts (B is
indeed left unchanged, trivially). -/
theorem hierarchy_merge_stub_not_union :
    hierarchyMerge mergeA mergeB = mergeA ∧
    hierarchyGetBase (hierarchyMerge mergeA mergeB) 1 0 = some 0 ∧
    hierarchyGetBase mergeA 1 0 = some 0 ∧
    hierarchyGetBase mergeB 1 0 = some 2 :=
  ⟨rfl, rfl, rfl, rfl⟩

/-- C8: refuted as stated — the load constructor raises no `MalformedBlock` at
all: on an 8-byte input (length not a multiple of 24) the loop is entered and
`extract()` reads past the end of the buffer, exactly the behaviour the claim
rules out, and on a well-delimited 24-byte record whose tube id 5 lies outside
a 3-tube block it throws `std::out_of_range` from `vector::at` — in neither
case the claimed `MalformedBlock`. -/
theorem contiguous_load_errors_not_malformed :
    contiguousLoad 0 4 (List.replicate 8 0) = Except.error LoadErr.oobRead ∧
    contiguousLoad 0 3 (encodeU64 5 ++ encodeU64 0 ++ encodeU64 1) =
      Except.error LoadErr.outOfRange :=
  ⟨rfl, rfl⟩

/-- C9: in the dense regime (depth+1 ≤ sparseDepthBegin, the condition under
which the spec has the directional climb used), `getClimb(dir)` returns the
state with chunkId = (c << dimensions) + 1 + toIntegral(dir)·p, pointsPerChunk
p unchanged and depth d+1; and the sparse `getClimb()` returns chunkId =
(c << dimensions) + 1, pointsPerChunk p·factor and depth d+1. -/
theorem chunk_state_climb_formulas (s : Structure) (cs : ChunkState) (dir : Dir)
    (h : cs.depth + 1 ≤ s.sparseDepthBegin) :
    getClimbDir s cs dir = Except.ok
      { depth := cs.depth + 1,
        chunkId := cs.chunkId * 2 ^ s.dimensions + 1
          + toIntegral dir * cs.pointsPerChunk,
        pointsPerChunk := cs.pointsPerChunk } ∧
    getClimbSparse s cs =
      { depth := cs.depth + 1,
        chunkId := cs.chunkId * 2 ^ s.dimensions + 1,
        pointsPerChunk := cs.pointsPerChunk * s.factor } := by
  constructor
  · have hc : ¬ s.sparseDepthBegin < cs.depth + 1 := by omega
    simp [getClimbDir, hc]
  · rfl

/-- Witness for C9 at Structure ⟨dimensions 2, sparseDepthBegin 3, factor 4⟩,
state ⟨depth 1, chunkId 0, pointsPerChunk 8⟩, direction `sed`. -/
theorem chunk_state_climb_formulas_witness :
    1 + 1 ≤ 3 ∧
    (getClimbDir ⟨2, 3, 4⟩ ⟨1, 0, 8⟩ Dir.sed = Except.ok
        { depth := 1 + 1,
          chunkId := 0 * 2 ^ 2 + 1 + toIntegral Dir.sed * 8,
          pointsPerChunk := 8 } ∧
      getClimbSparse ⟨2, 3, 4⟩ ⟨1, 0, 8⟩ =
        { depth := 1 + 1, chunkId := 0 * 2 ^ 2 + 1, pointsPerChunk := 8 * 4 }) :=
  ⟨by decide, chunk_state_climb_formulas ⟨2, 3, 4⟩ ⟨1, 0, 8⟩ Dir.sed (by decide)⟩

/-- C10: whenever the configuration contains a "subset" member, the nullDepth
handed to the Structure is at least the subset's minimumNullDepth: a
configured value below the minimum is replaced by exactly the minimum, and a
value at or above it is passed through unchanged. -/
theorem builder_null_depth_bump (hasSubset : Bool) (c m : Nat)
    (h : hasSubset = true) :
    m ≤ builderNullDepth hasSubset c m ∧
    (c < m → builderNullDepth hasSubset c m = m) ∧
    (m ≤ c → builderNullDepth hasSubset c m = c) := by
  subst h
  have e : builderNullDepth true c m = if c < m then m else c := rfl
  rw [e]
  refine ⟨?_, fun h1 => ?_, fun h2 => ?_⟩ <;> split_ifs <;> omega

/-- Witness for C10 at hasSubset = true, configured nullDepth 2, minimum 5. -/
theorem builder_null_depth_bump_witness :
    (true : Bool) = true ∧
    (5 ≤ builderNullDepth true 2 5 ∧
      (2 < 5 → builderNullDepth true 2 5 = 5) ∧
      (5 ≤ 2 → builderNullDepth true 2 5 = 2)) :=
  ⟨rfl, builder_null_depth_bump true 2 5 rfl⟩
